import Mathlib

/-!
Shallow embedding of the traffic-generation core of `lading`
(`src/block.rs` and `src/generator/tcp.rs`).

Modelling conventions:
- Machine integers (`usize`, `u32`, `u64`, `u128`) are `Nat`; the `as u32`
  and `as usize` casts that appear in the source are made explicit with
  `% 2 ^ 32` and `% 2 ^ 64`.
- `NonZeroUsize` and `NonZeroU32` values are modelled as `Nat` together with
  positivity hypotheses where they matter; the `unwrap`/`expect` calls on
  their constructors are modelled as explicit panic outcomes.
- The PRNG (`StdRng`) is modelled as an abstract deterministic transition
  `rngNext : Nat → Nat × Nat` on a state of type `Nat`: `rngNext s` yields a
  drawn value and the successor state.  `StdRng::from_seed` is modelled by
  using the seed itself as the initial state.
- The `while` loop of `chunk_bytes` is modelled with explicit fuel; `none`
  means the fuel budget was exhausted (the source loop can spin arbitrarily
  long on unlucky draws, as its own doc comment notes).
- Bytes are `Nat` (values < 256 in any real run); the newline byte is 10.
-/

namespace Lading

/-- Error type of `block.rs` (`ChunkError`). -/
inductive ChunkError
  | EmptyBlockBytes
  | InsufficientTotalBytes
deriving DecidableEq, Repr

/-- Minimum of the non-empty list `p :: ps`, as computed by
`block_byte_sizes.iter().min().unwrap()`. -/
def listMin (p : Nat) (ps : List Nat) : Nat :=
  ps.foldl Nat.min p

/-- Maximum of the non-empty list `p :: ps`, as computed by
`block_byte_sizes.iter().max().unwrap()`. -/
def listMax (p : Nat) (ps : List Nat) : Nat :=
  ps.foldl Nat.max p

/-- The `while bytes_remaining > minimum` loop of `chunk_bytes`
(`src/block.rs` lines 86-94), with explicit fuel.  Returns the list of
chunks together with the PRNG state after the loop, or `none` when fuel
runs out before the loop condition turns false. -/
def chunkLoop (palette : List Nat) (minimum maximum : Nat)
    (rngNext : Nat → Nat × Nat) : Nat → Nat → Nat → Option (List Nat × Nat)
  | 0, rng, bytesRemaining =>
      if minimum < bytesRemaining then none else some ([], rng)
  | fuel + 1, rng, bytesRemaining =>
      if minimum < bytesRemaining then
        let bytesMax := Nat.min maximum bytesRemaining
        let d := rngNext rng
        let blockBytes := palette.getD (d.fst % palette.length) 0
        if bytesMax < blockBytes then
          chunkLoop palette minimum maximum rngNext fuel d.snd bytesRemaining
        else
          (chunkLoop palette minimum maximum rngNext fuel d.snd
              (bytesRemaining - blockBytes)).map
            (fun pr => (blockBytes :: pr.fst, pr.snd))
      else some ([], rng)

/-- Embedding of `chunk_bytes` (`src/block.rs` lines 64-96).  The result
carries the chunk list together with the PRNG state after the call, since
the caller (`Tcp::new`) keeps using the same PRNG. -/
def chunk_bytes (rngNext : Nat → Nat × Nat) (rng fuel total_bytes : Nat)
    (block_byte_sizes : List Nat) :
    Option (Except ChunkError (List Nat × Nat)) :=
  match block_byte_sizes with
  | [] => some (Except.error ChunkError.EmptyBlockBytes)
  | p :: ps =>
    if (p :: ps).any (fun bb => total_bytes < bb) then
      some (Except.error ChunkError.InsufficientTotalBytes)
    else
      (chunkLoop (p :: ps) (listMin p ps) (listMax p ps) rngNext fuel rng
          total_bytes).map Except.ok

theorem listMin_le (p : Nat) (ps : List Nat) : ∀ x ∈ p :: ps, listMin p ps ≤ x := by
  induction ps generalizing p with
  | nil => intro x hx; simp at hx; simp [listMin, hx]
  | cons q qs ih =>
    intro x hx
    have base : listMin p (q :: qs) = listMin (Nat.min p q) qs := rfl
    rw [base]
    have hmin : ∀ y ∈ Nat.min p q :: qs, listMin (Nat.min p q) qs ≤ y :=
      ih (Nat.min p q)
    rcases List.mem_cons.mp hx with h1 | h1
    · subst h1
      exact le_trans (hmin _ (by simp)) (Nat.min_le_left _ q)
    · rcases List.mem_cons.mp h1 with h2 | h2
      · subst h2
        exact le_trans (hmin _ (by simp)) (Nat.min_le_right p _)
      · exact hmin x (by simp [h2])

theorem listMin_mem (p : Nat) (ps : List Nat) : listMin p ps ∈ p :: ps := by
  induction ps generalizing p with
  | nil => simp [listMin]
  | cons q qs ih =>
    have base : listMin p (q :: qs) = listMin (Nat.min p q) qs := rfl
    rw [base]
    have h := ih (Nat.min p q)
    rcases List.mem_cons.mp h with h1 | h1
    · have hor : Nat.min p q = p ∨ Nat.min p q = q := by
        rcases Nat.le_total p q with hpq | hpq
        · exact Or.inl (Nat.min_eq_left hpq)
        · exact Or.inr (Nat.min_eq_right hpq)
      rcases hor with h2 | h2 <;> rw [h1, h2] <;> simp
    · simp [h1]

/-- Every chunk pushed by the loop is drawn from the palette, the chunks
sum to at most the starting budget, and the loop only stops once the
remainder is at most `minimum`. -/
theorem chunkLoop_invariant (palette : List Nat) (minimum maximum : Nat)
    (rngNext : Nat → Nat × Nat) (hpal : palette ≠ []) :
    ∀ fuel rng bytesRemaining l rngF,
      chunkLoop palette minimum maximum rngNext fuel rng bytesRemaining =
        some (l, rngF) →
      l.sum ≤ bytesRemaining ∧ bytesRemaining - l.sum ≤ minimum ∧
        ∀ x ∈ l, x ∈ palette := by
  intro fuel
  induction fuel with
  | zero =>
    intro rng bytesRemaining l rngF h
    by_cases hc : minimum < bytesRemaining
    · simp [chunkLoop, hc] at h
    · simp [chunkLoop, hc] at h
      refine ⟨by simp [h.1], by simp [h.1]; omega, by simp [h.1]⟩
  | succ fuel ih =>
    intro rng bytesRemaining l rngF h
    by_cases hc : minimum < bytesRemaining
    · rw [chunkLoop] at h
      simp only [hc, if_true] at h
      set bytesMax := Nat.min maximum bytesRemaining with hbm
      set d := rngNext rng with hd
      set blockBytes := palette.getD (d.fst % palette.length) 0 with hbb
      by_cases hskip : bytesMax < blockBytes
      · simp only [hskip, if_true] at h
        exact ih d.snd bytesRemaining l rngF h
      · simp only [hskip, if_false] at h
        rcases Option.map_eq_some'.mp h with ⟨⟨rest, rngF'⟩, hrest, heq⟩
        have hx := ih d.snd (bytesRemaining - blockBytes) rest rngF' hrest
        have hle : blockBytes ≤ bytesRemaining := by
          have : bytesMax ≤ bytesRemaining := Nat.min_le_right _ _
          omega
        have hl : l = blockBytes :: rest := by
          have := congrArg Prod.fst heq
          simpa using this.symm
        have hmem : blockBytes ∈ palette := by
          have hlen : 0 < palette.length := List.length_pos.mpr hpal
          have hlt : d.fst % palette.length < palette.length :=
            Nat.mod_lt _ hlen
          rw [hbb, List.getD_eq_getElem?_getD,
            List.getElem?_eq_getElem hlt]
          simp
        subst hl
        refine ⟨?_, ?_, ?_⟩
        · simp only [List.sum_cons]
          omega
        · simp only [List.sum_cons]
          omega
        · intro x hx'
          rcases List.mem_cons.mp hx' with h1 | h1
          · rw [h1]; exact hmem
          · exact hx.2.2 x h1
    · rw [chunkLoop] at h
      simp only [hc, if_false, Option.some.injEq, Prod.mk.injEq] at h
      refine ⟨by simp [← h.1], by simp [← h.1]; omega, by simp [← h.1]⟩

/-- When the loop is entered (`minimum < bytesRemaining`) any plan it
returns is non-empty: the loop can only stop by pushing chunks until the
remainder drops to at most `minimum`. -/
theorem chunkLoop_ne_nil (palette : List Nat) (minimum maximum : Nat)
    (rngNext : Nat → Nat × Nat) :
    ∀ fuel rng bytesRemaining l rngF, minimum < bytesRemaining →
      chunkLoop palette minimum maximum rngNext fuel rng bytesRemaining =
        some (l, rngF) →
      l ≠ [] := by
  intro fuel
  induction fuel with
  | zero =>
    intro rng bytesRemaining l rngF hc h
    simp [chunkLoop, hc] at h
  | succ fuel ih =>
    intro rng bytesRemaining l rngF hc h
    rw [chunkLoop] at h
    simp only [hc, if_true] at h
    set d := rngNext rng with hd
    set blockBytes := palette.getD (d.fst % palette.length) 0 with hbb
    by_cases hskip : Nat.min maximum bytesRemaining < blockBytes
    · simp only [hskip, if_true] at h
      exact ih d.snd bytesRemaining l rngF hc h
    · simp only [hskip, if_false] at h
      rcases Option.map_eq_some'.mp h with ⟨⟨rest, rngF'⟩, _, heq⟩
      have hcons : blockBytes :: rest = l := congrArg Prod.fst heq
      intro hnil
      rw [hnil] at hcons
      exact absurd hcons (List.cons_ne_nil _ _)

/-- Claim C5: for valid inputs (positive budget, non-empty palette of
positive sizes), any plan returned by `chunk_bytes` sums to at most
`total_bytes`, leaves a remainder of at most `min(palette)`, and consists
only of palette members (hence positive sizes). -/
theorem chunk_bytes_plan_within_budget (rngNext : Nat → Nat × Nat)
    (rng fuel total_bytes p : Nat) (ps : List Nat) (plan : List Nat)
    (rngF : Nat) (hpos : ∀ x ∈ p :: ps, 0 < x) (_htot : 0 < total_bytes)
    (h : chunk_bytes rngNext rng fuel total_bytes (p :: ps) =
      some (Except.ok (plan, rngF))) :
    plan.sum ≤ total_bytes ∧ total_bytes - plan.sum ≤ listMin p ps ∧
      ∀ x ∈ plan, x ∈ p :: ps ∧ 0 < x := by
  rw [chunk_bytes] at h
  split at h
  · simp at h
  · rcases Option.map_eq_some'.mp h with ⟨⟨l, rngF'⟩, hl, heq⟩
    have hpr : l = plan ∧ rngF' = rngF := by
      simpa [Prod.ext_iff] using heq
    rw [hpr.1, hpr.2] at hl
    have hinv := chunkLoop_invariant (p :: ps) (listMin p ps) (listMax p ps)
      rngNext (List.cons_ne_nil p ps) fuel rng total_bytes plan rngF hl
    exact ⟨hinv.1, hinv.2.1, fun x hx =>
      ⟨hinv.2.2 x hx, hpos x (hinv.2.2 x hx)⟩⟩

theorem chunk_bytes_plan_within_budget_witness :
    List.sum [2, 2] ≤ 5 ∧ 5 - List.sum [2, 2] ≤ listMin 2 [3] ∧
      ∀ x ∈ [2, 2], x ∈ 2 :: [3] ∧ 0 < x :=
  chunk_bytes_plan_within_budget (fun s => (0, s + 1)) 0 10 5 2 [3] [2, 2] 2
    (by decide) (by decide) rfl

/-- Claim C6: `chunk_bytes` fails with `EmptyBlockBytes` (spec name:
`EmptyPalette`) exactly when the palette is empty, and for a non-empty
palette fails with `InsufficientTotalBytes` exactly when some palette
entry exceeds `total_bytes`; an error result carries no plan. -/
theorem chunk_bytes_error_iff (rngNext : Nat → Nat × Nat)
    (rng fuel total_bytes : Nat) (palette : List Nat) :
    (chunk_bytes rngNext rng fuel total_bytes palette =
        some (Except.error ChunkError.EmptyBlockBytes) ↔ palette = []) ∧
    (palette ≠ [] →
      (chunk_bytes rngNext rng fuel total_bytes palette =
          some (Except.error ChunkError.InsufficientTotalBytes) ↔
        ∃ bb ∈ palette, total_bytes < bb)) := by
  cases palette with
  | nil =>
    refine ⟨by simp [chunk_bytes], fun h => absurd rfl h⟩
  | cons p ps =>
    constructor
    · constructor
      · intro h
        rw [chunk_bytes] at h
        split at h
        · simp at h
        · rcases Option.map_eq_some'.mp h with ⟨pr, _, heq⟩
          simp at heq
      · intro h
        exact absurd h (List.cons_ne_nil p ps)
    · intro _
      constructor
      · intro h
        rw [chunk_bytes] at h
        split at h
        · next hany =>
          simpa [List.any_eq_true, decide_eq_true_eq] using hany
        · rcases Option.map_eq_some'.mp h with ⟨pr, _, heq⟩
          simp at heq
      · intro hex
        rw [chunk_bytes]
        have hany : ((p :: ps).any fun bb => decide (total_bytes < bb)) = true := by
          simp only [List.any_eq_true, decide_eq_true_eq]
          exact hex
        simp [hany]

theorem chunk_bytes_error_iff_witness :
    chunk_bytes (fun s => (0, s + 1)) 0 5 3 [] =
        some (Except.error ChunkError.EmptyBlockBytes) ∧
      chunk_bytes (fun s => (0, s + 1)) 0 5 3 [4] =
        some (Except.error ChunkError.InsufficientTotalBytes) :=
  ⟨(chunk_bytes_error_iff (fun s => (0, s + 1)) 0 5 3 []).1.mpr rfl,
   ((chunk_bytes_error_iff (fun s => (0, s + 1)) 0 5 3 [4]).2
      (List.cons_ne_nil 4 [])).mpr ⟨4, by simp, by omega⟩⟩

/-- Claim C2 counterexample: `total_bytes = 1` with palette `[1]` is a
valid input (budget positive, palette non-empty, every entry positive and
at most the budget), yet `chunk_bytes` succeeds with an *empty* plan: the
loop condition `bytes_remaining > minimum` is false from the start. -/
theorem chunk_bytes_empty_plan_on_valid_input :
    (0 : Nat) < 1 ∧ (∀ x ∈ [(1 : Nat)], 0 < x ∧ x ≤ 1) ∧
      chunk_bytes (fun s => (0, s + 1)) 0 5 1 [1] =
        some (Except.ok (([] : List Nat), 0)) :=
  ⟨by decide, by decide, rfl⟩

/-- Claim C2 amended: for every seed and fuel budget, whenever
`min(palette) < total_bytes` (strictly) any plan returned by
`chunk_bytes` is non-empty.  (When `min(palette) = total_bytes` the
returned plan is empty, see the counterexample.) -/
theorem chunk_bytes_plan_nonempty (rngNext : Nat → Nat × Nat)
    (rng fuel total_bytes p : Nat) (ps : List Nat) (plan : List Nat)
    (rngF : Nat) (hmin : listMin p ps < total_bytes)
    (h : chunk_bytes rngNext rng fuel total_bytes (p :: ps) =
      some (Except.ok (plan, rngF))) :
    plan ≠ [] := by
  rw [chunk_bytes] at h
  split at h
  · simp at h
  · rcases Option.map_eq_some'.mp h with ⟨⟨l, rngF'⟩, hl, heq⟩
    have hpr : l = plan ∧ rngF' = rngF := by
      simpa [Prod.ext_iff] using heq
    rw [hpr.1, hpr.2] at hl
    exact chunkLoop_ne_nil (p :: ps) (listMin p ps) (listMax p ps) rngNext
      fuel rng total_bytes plan rngF hmin hl

theorem chunk_bytes_plan_nonempty_witness : ([2, 2] : List Nat) ≠ [] :=
  chunk_bytes_plan_nonempty (fun s => (0, s + 1)) 0 10 5 2 [3] [2, 2] 2
    (by decide) rfl

/-- The `Block` struct of `src/block.rs` lines 22-27.  `total_bytes` is a
`NonZeroU32` in the source; here it is a `Nat` whose positivity is proved
as an invariant. -/
structure Block where
  total_bytes : Nat
  lines : Nat
  bytes : List Nat
deriving DecidableEq, Repr

/-- Embedding of `total_newlines` (`src/block.rs` lines 29-32):
the count of newline bytes (10) in the input. -/
def total_newlines (input : List Nat) : Nat :=
  input.count 10

/-- A serializer (`payload::Serialize::to_bytes`) is modelled as a
deterministic function from a PRNG state and a size hint to the emitted
bytes and the successor PRNG state.  The source's serializers live in the
`payload` module; the builder treats them abstractly. -/
def Serializer : Type :=
  Nat → Nat → List Nat × Nat

/-- Embedding of `construct_block_cache` (`src/block.rs` lines 112-150),
minus its final non-emptiness assertion (see
`construct_block_cache_checked`).  For each chunk size the serializer is
invoked; an empty render is skipped, a non-empty render becomes a
`Block` whose `total_bytes` is the rendered length and whose `lines` is
the newline count. -/
def construct_block_cache (serializer : Serializer) :
    Nat → List Nat → List Block
  | _, [] => []
  | rng, block_size :: rest =>
    let r := serializer rng block_size
    if r.fst.isEmpty then construct_block_cache serializer r.snd rest
    else
      { total_bytes := r.fst.length, lines := total_newlines r.fst,
        bytes := r.fst } :: construct_block_cache serializer r.snd rest

/-- `construct_block_cache` together with its trailing
`assert!(!block_cache.is_empty())`:  `none` models the panic taken when
zero blocks survived serialization. -/
def construct_block_cache_checked (serializer : Serializer) (rng : Nat)
    (block_chunks : List Nat) : Option (List Block) :=
  let c := construct_block_cache serializer rng block_chunks
  if c.isEmpty then none else some c

/-- Claim C7: every block placed in a constructed cache has positive
`total_bytes` equal to the length of its payload, and a line count equal
to the number of newline bytes in the payload. -/
theorem construct_block_cache_block_invariant (serializer : Serializer)
    (rng : Nat) (chunks : List Nat) (b : Block)
    (hb : b ∈ construct_block_cache serializer rng chunks) :
    0 < b.total_bytes ∧ b.total_bytes = b.bytes.length ∧
      b.lines = total_newlines b.bytes := by
  induction chunks generalizing rng with
  | nil => simp [construct_block_cache] at hb
  | cons sz rest ih =>
    rw [construct_block_cache] at hb
    by_cases hemp : (serializer rng sz).fst.isEmpty
    · simp only [hemp, if_true] at hb
      exact ih _ hb
    · simp only [hemp, if_false] at hb
      rcases List.mem_cons.mp hb with h1 | h1
      · subst h1
        refine ⟨?_, rfl, rfl⟩
        have : (serializer rng sz).fst ≠ [] := by
          simpa [List.isEmpty_iff] using hemp
        simpa [List.length_pos] using this
      · exact ih _ h1

theorem construct_block_cache_block_invariant_witness :
    0 < Block.total_bytes { total_bytes := 2, lines := 2, bytes := [10, 10] } ∧
      Block.total_bytes { total_bytes := 2, lines := 2, bytes := [10, 10] } =
        List.length [10, 10] ∧
      Block.lines { total_bytes := 2, lines := 2, bytes := [10, 10] } =
        total_newlines [10, 10] :=
  construct_block_cache_block_invariant
    (fun st hint => (List.replicate hint 10, st)) 0 [2]
    { total_bytes := 2, lines := 2, bytes := [10, 10] } (by simp [construct_block_cache, total_newlines])

/-- Claim C8: the builder skips a chunk whose serialization is empty,
appends a block for a chunk whose serialization is non-empty, and the
checked builder (with the source's assertion) fails exactly when zero
blocks survive. -/
theorem construct_block_cache_skip_append_nonempty :
    (∀ (serializer : Serializer) (rng sz : Nat) (rest : List Nat) (rng2 : Nat),
        serializer rng sz = ([], rng2) →
        construct_block_cache serializer rng (sz :: rest) =
          construct_block_cache serializer rng2 rest) ∧
    (∀ (serializer : Serializer) (rng sz : Nat) (rest : List Nat)
        (bs : List Nat) (rng2 : Nat),
        serializer rng sz = (bs, rng2) → bs ≠ [] →
        construct_block_cache serializer rng (sz :: rest) =
          { total_bytes := bs.length, lines := total_newlines bs,
            bytes := bs } :: construct_block_cache serializer rng2 rest) ∧
    (∀ (serializer : Serializer) (rng : Nat) (chunks : List Nat),
        construct_block_cache_checked serializer rng chunks = none ↔
          construct_block_cache serializer rng chunks = []) := by
  refine ⟨?_, ?_, ?_⟩
  · intro serializer rng sz rest rng2 hser
    rw [construct_block_cache, hser]
    simp
  · intro serializer rng sz rest bs rng2 hser hne
    rw [construct_block_cache, hser]
    simp [List.isEmpty_iff, hne]
  · intro serializer rng chunks
    rw [construct_block_cache_checked]
    by_cases hemp : (construct_block_cache serializer rng chunks).isEmpty
    · simp only [hemp, if_true]
      simpa [List.isEmpty_iff] using hemp
    · simp only [hemp, if_false]
      constructor
      · intro h; simp at h
      · intro h
        rw [List.isEmpty_iff] at hemp
        exact absurd h hemp

theorem construct_block_cache_skip_append_nonempty_witness :
    construct_block_cache (fun st hint => (List.replicate hint 10, st)) 0
        [0, 2] =
      construct_block_cache (fun st hint => (List.replicate hint 10, st)) 0
        [2] ∧
    construct_block_cache (fun st hint => (List.replicate hint 10, st)) 0
        [2] =
      { total_bytes := 2, lines := 2, bytes := [10, 10] } ::
        construct_block_cache (fun st hint => (List.replicate hint 10, st))
          0 [] ∧
    (construct_block_cache_checked
        (fun st hint => (List.replicate hint 10, st)) 0 [0] = none ↔
      construct_block_cache (fun st hint => (List.replicate hint 10, st)) 0
          [0] = []) :=
  ⟨construct_block_cache_skip_append_nonempty.1
      (fun st hint => (List.replicate hint 10, st)) 0 0 [2] 0 rfl,
   construct_block_cache_skip_append_nonempty.2.1
      (fun st hint => (List.replicate hint 10, st)) 0 2 [] [10, 10] 0 rfl
      (by decide),
   construct_block_cache_skip_append_nonempty.2.2
      (fun st hint => (List.replicate hint 10, st)) 0 [0]⟩

/-- Mutable state of the `Tcp::spin` loop (`src/generator/tcp.rs` lines
180-228): whether a connection is held, how many times `blocks.next()`
has been called (the cyclic cursor), the three counters, and the ordered
log of successfully written payloads. -/
structure SpinState where
  connection : Bool
  cursor : Nat
  connection_failure : Nat
  request_failure : Nat
  bytes_written : Nat
  written : List Block
deriving DecidableEq, Repr

/-- Which ready branch the `tokio::select!` takes on an iteration, and
whether the awaited I/O succeeds. -/
inductive SpinEvent
  | connectOk
  | connectErr
  | sendOk
  | sendErr
  | shutdown
deriving DecidableEq, Repr

/-- Result of one loop iteration: continue with a new state, return
`Ok(())`, or panic. -/
inductive StepResult
  | next (s : SpinState)
  | returnOk
  | panicked
deriving DecidableEq, Repr

/-- One iteration of the `loop` in `Tcp::spin`.  `none` means the event
is not selectable in this state (the branch guard rejects it: connect
requires the connection slot empty, send requires it full).
`blocks.next()` runs at the top of every iteration, before the select: it
reads `cache[(cursor % cache.length)]` and increments the cursor; on an
empty cache `next()` yields `None` and the `unwrap` panics. -/
def spinStep (cache : List Block) (s : SpinState) (e : SpinEvent) :
    Option StepResult :=
  match cache[s.cursor % cache.length]? with
  | none => some StepResult.panicked
  | some blk =>
    let s1 := { s with cursor := s.cursor + 1 }
    match e with
    | SpinEvent.connectOk =>
      if s.connection then none
      else some (StepResult.next { s1 with connection := true })
    | SpinEvent.connectErr =>
      if s.connection then none
      else some (StepResult.next
        { s1 with connection_failure := s.connection_failure + 1 })
    | SpinEvent.sendOk =>
      if s.connection then
        some (StepResult.next
          { s1 with
            bytes_written := s.bytes_written + blk.total_bytes,
            written := s.written ++ [blk] })
      else none
    | SpinEvent.sendErr =>
      if s.connection then
        some (StepResult.next
          { s1 with
            connection := false,
            request_failure := s.request_failure + 1 })
      else none
    | SpinEvent.shutdown => some StepResult.returnOk

/-- Claim C1 counterexample: on an iteration where the connect branch is
selected (here, a failed connect attempt), the cursor nevertheless
advances from 0 to 1, because `blocks.next()` runs at the top of every
iteration before the select.  This refutes "never advances on iterations
where a connect attempt or shutdown was selected". -/
theorem spin_cursor_advances_on_connect_iteration :
    spinStep [{ total_bytes := 1, lines := 0, bytes := [65] }]
        { connection := false, cursor := 0, connection_failure := 0,
          request_failure := 0, bytes_written := 0, written := [] }
        SpinEvent.connectErr =
      some (StepResult.next
        { connection := false, cursor := 1, connection_failure := 1,
          request_failure := 0, bytes_written := 0, written := [] }) ∧
    (1 : Nat) ≠ 0 :=
  ⟨by decide, one_ne_zero⟩

/-- Claim C1 amended: the cursor advances exactly once per loop iteration
regardless of which branch was selected (so it is never rewound, in
particular not across a reconnect); on a successful send the block
appended to the write log is the cache entry at the pre-iteration cursor
position, so writes follow cache order cyclically, with cache entries
skipped on the iterations that a connect attempt consumed. -/
theorem spin_cursor_advances_every_iteration :
    (∀ cache s e s', spinStep cache s e = some (StepResult.next s') →
      s'.cursor = s.cursor + 1) ∧
    (∀ cache s s' blk, cache[s.cursor % cache.length]? = some blk →
      spinStep cache s SpinEvent.sendOk = some (StepResult.next s') →
      s'.written = s.written ++ [blk]) := by
  constructor
  · intro cache s e s' h
    rw [spinStep] at h
    cases hget : cache[s.cursor % cache.length]? with
    | none => rw [hget] at h; simp at h
    | some blk =>
      rw [hget] at h
      cases e <;> by_cases hc : s.connection <;>
        simp only [hc, if_true, if_false, Option.some.injEq] at h <;>
        (cases h <;> rfl)
  · intro cache s s' blk hget h
    rw [spinStep, hget] at h
    by_cases hc : s.connection
    · simp only [hc, if_true, Option.some.injEq] at h
      cases h
      rfl
    · simp [hc] at h

theorem spin_cursor_advances_every_iteration_witness :
    SpinState.cursor
        { connection := false, cursor := 1, connection_failure := 1,
          request_failure := 0, bytes_written := 0, written := [] } =
      SpinState.cursor
        { connection := false, cursor := 0, connection_failure := 0,
          request_failure := 0, bytes_written := 0, written := [] } + 1 ∧
    SpinState.written
        { connection := true, cursor := 1, connection_failure := 0,
          request_failure := 0, bytes_written := 1,
          written := [{ total_bytes := 1, lines := 0, bytes := [65] }] } =
      [] ++ [{ total_bytes := 1, lines := 0, bytes := [65] }] :=
  ⟨spin_cursor_advances_every_iteration.1
      [{ total_bytes := 1, lines := 0, bytes := [65] }]
      { connection := false, cursor := 0, connection_failure := 0,
        request_failure := 0, bytes_written := 0, written := [] }
      SpinEvent.connectErr
      { connection := false, cursor := 1, connection_failure := 1,
        request_failure := 0, bytes_written := 0, written := [] } (by decide),
   spin_cursor_advances_every_iteration.2
      [{ total_bytes := 1, lines := 0, bytes := [65] }]
      { connection := true, cursor := 0, connection_failure := 0,
        request_failure := 0, bytes_written := 0, written := [] }
      { connection := true, cursor := 1, connection_failure := 0,
        request_failure := 0, bytes_written := 1,
        written := [{ total_bytes := 1, lines := 0, bytes := [65] }] }
      { total_bytes := 1, lines := 0, bytes := [65] } (by decide) (by decide)⟩

/-- Claim C4: the loop returns `Ok` only on the shutdown branch; a failed
connect increments `connection_failure` and leaves the connection absent;
a failed write increments `request_failure` and moves the connection from
present to absent; with a non-empty cache any non-shutdown event (in
particular any I/O error) continues the loop rather than exiting it, and
shutdown always returns `Ok`. -/
theorem spin_never_exits_on_io_error :
    (∀ cache s e, spinStep cache s e = some StepResult.returnOk →
      e = SpinEvent.shutdown) ∧
    (∀ cache s s', spinStep cache s SpinEvent.connectErr =
        some (StepResult.next s') →
      s'.connection = false ∧
        s'.connection_failure = s.connection_failure + 1) ∧
    (∀ cache s s', spinStep cache s SpinEvent.sendErr =
        some (StepResult.next s') →
      s.connection = true ∧ s'.connection = false ∧
        s'.request_failure = s.request_failure + 1) ∧
    (∀ cache s e, cache ≠ [] → e ≠ SpinEvent.shutdown →
      ∀ r, spinStep cache s e = some r → ∃ s', r = StepResult.next s') ∧
    (∀ cache s, cache ≠ [] →
      spinStep cache s SpinEvent.shutdown = some StepResult.returnOk) := by
  refine ⟨?_, ?_, ?_, ?_, ?_⟩
  · intro cache s e h
    rw [spinStep] at h
    cases hg : cache[s.cursor % cache.length]? with
    | none => rw [hg] at h; simp at h
    | some blk =>
      rw [hg] at h
      cases e <;> by_cases hc : s.connection <;>
        simp only [hc, if_true, if_false, Option.some.injEq] at h <;>
        first
          | rfl
          | (cases h)
  · intro cache s s' h
    rw [spinStep] at h
    cases hg : cache[s.cursor % cache.length]? with
    | none => rw [hg] at h; simp at h
    | some blk =>
      rw [hg] at h
      by_cases hc : s.connection
      · simp [hc] at h
      · simp only [hc, if_false, Option.some.injEq] at h
        cases h
        exact ⟨by simp at hc; simp [hc], rfl⟩
  · intro cache s s' h
    rw [spinStep] at h
    cases hg : cache[s.cursor % cache.length]? with
    | none => rw [hg] at h; simp at h
    | some blk =>
      rw [hg] at h
      by_cases hc : s.connection
      · simp only [hc, if_true, Option.some.injEq] at h
        cases h
        exact ⟨hc, rfl, rfl⟩
      · simp [hc] at h
  · intro cache s e hne hsh r h
    rw [spinStep] at h
    cases hg : cache[s.cursor % cache.length]? with
    | none =>
      exfalso
      have hlen : 0 < cache.length := List.length_pos.mpr hne
      have hlt : s.cursor % cache.length < cache.length := Nat.mod_lt _ hlen
      rw [List.getElem?_eq_getElem hlt] at hg
      simp at hg
    | some blk =>
      rw [hg] at h
      cases e <;> by_cases hc : s.connection <;>
        simp only [hc, if_true, if_false, Option.some.injEq] at h <;>
        first
          | exact absurd rfl hsh
          | (cases h <;> exact ⟨_, rfl⟩)
  · intro cache s hne
    have hlen : 0 < cache.length := List.length_pos.mpr hne
    rw [spinStep, List.getElem?_eq_getElem (Nat.mod_lt _ hlen)]

theorem spin_never_exits_on_io_error_witness :
    SpinEvent.shutdown = SpinEvent.shutdown ∧
    (SpinState.connection
        { connection := false, cursor := 1, connection_failure := 1,
          request_failure := 0, bytes_written := 0, written := [] } = false ∧
      SpinState.connection_failure
        { connection := false, cursor := 1, connection_failure := 1,
          request_failure := 0, bytes_written := 0, written := [] } = 0 + 1) ∧
    (∃ s', StepResult.next
        { connection := false, cursor := 1, connection_failure := 1,
          request_failure := 0, bytes_written := 0, written := [] } =
        StepResult.next s') ∧
    spinStep [{ total_bytes := 1, lines := 0, bytes := [65] }]
        { connection := true, cursor := 0, connection_failure := 0,
          request_failure := 0, bytes_written := 0, written := [] }
        SpinEvent.shutdown = some StepResult.returnOk :=
  ⟨spin_never_exits_on_io_error.1
      [{ total_bytes := 1, lines := 0, bytes := [65] }]
      { connection := false, cursor := 0, connection_failure := 0,
        request_failure := 0, bytes_written := 0, written := [] }
      SpinEvent.shutdown (by decide),
   spin_never_exits_on_io_error.2.1
      [{ total_bytes := 1, lines := 0, bytes := [65] }]
      { connection := false, cursor := 0, connection_failure := 0,
        request_failure := 0, bytes_written := 0, written := [] }
      { connection := false, cursor := 1, connection_failure := 1,
        request_failure := 0, bytes_written := 0, written := [] } (by decide),
   spin_never_exits_on_io_error.2.2.2.1
      [{ total_bytes := 1, lines := 0, bytes := [65] }]
      { connection := false, cursor := 0, connection_failure := 0,
        request_failure := 0, bytes_written := 0, written := [] }
      SpinEvent.connectErr (by decide) (by decide) _ (by decide),
   spin_never_exits_on_io_error.2.2.2.2
      [{ total_bytes := 1, lines := 0, bytes := [65] }]
      { connection := true, cursor := 0, connection_failure := 0,
        request_failure := 0, bytes_written := 0, written := [] }
      (by decide)⟩

/-- The payload variants of `src/generator/tcp.rs`.  The `Static` variant
carries its file's contents rather than a path: the `payload::Static`
serializer reads the file once at construction, so the contents are the
only part of the path that influences the engine. -/
inductive GeneratorVariant
  | Fluent
  | Syslog5424
  | Static (contents : List Nat)
deriving DecidableEq, Repr

/-- The `Config` struct of `src/generator/tcp.rs` lines 27-42.  Byte
quantities (`byte_unit::Byte`) are `u128` values, modelled as `Nat`; the
32-byte seed array is modelled by the PRNG state it seeds. -/
structure Config where
  seed : Nat
  addr : String
  variant : GeneratorVariant
  bytes_per_second : Nat
  block_sizes : Option (List Nat)
  maximum_prebuild_cache_size_bytes : Nat
deriving Repr

/-- The `Error` enum of `src/generator/tcp.rs` lines 60-68:
`Governor(InsufficientCapacity)` and `Block(block::Error)`, the latter
wrapping a `ChunkError`. -/
inductive TcpError
  | Governor
  | Block (e : ChunkError)
deriving DecidableEq, Repr

/-- Result of running a fallible, panicking constructor:  it panics
(`unwrap`/`expect`/`assert!`), returns `Err`, or returns `Ok`. -/
inductive Outcome (α : Type)
  | panicked
  | failed (e : TcpError)
  | ok (a : α)
deriving DecidableEq, Repr

/-- The successfully constructed `Tcp` generator (fields of the source's
`Tcp` struct that the claims concern: resolved address, token-bucket
rate, and block cache; the rate limiter handle, metric labels and
shutdown receiver carry no further data in this model). -/
structure Tcp where
  addr : Nat
  bytes_per_second : Nat
  block_cache : List Block
deriving DecidableEq, Repr

/-- The default block-size palette of `Tcp::new` (lines 111-122):
1/32, 1/16, 1/8, 1/4, 1/2, 1, 2, 4 MB, where `byte_unit::ByteUnit::MB`
is 10^6 bytes. -/
def defaultBlockSizes : List Nat :=
  [31250, 62500, 125000, 250000, 500000, 1000000, 2000000, 4000000]

/-- The cache-construction portion of `Tcp::new` (lines 107-154), in
source order: seed the PRNG, resolve the block-size palette (applying the
`as usize` truncation and panicking on a zero size), truncate
`bytes_per_second` with `as u32` and panic if the result is zero, panic
if the truncated `maximum_prebuild_cache_size_bytes` is zero, run
`chunk_bytes` (propagating its error with `?`), then run
`construct_block_cache` for the configured variant.  `serOf` supplies the
serializer of each variant (the `payload` module); `none` models a fuel
budget too small for the `chunk_bytes` loop. -/
def tcpSizes (c : Config) : List Nat :=
  (c.block_sizes.getD defaultBlockSizes).map (fun sz => sz % 2 ^ 64)

def tcpBlockCache (serOf : GeneratorVariant → Serializer)
    (rngNext : Nat → Nat × Nat) (fuel : Nat) (c : Config) :
    Option (Outcome (List Block)) :=
  if (tcpSizes c).any (fun sz => sz == 0) then some Outcome.panicked
  else if c.bytes_per_second % 2 ^ 32 = 0 then some Outcome.panicked
  else if c.maximum_prebuild_cache_size_bytes % 2 ^ 64 = 0 then
    some Outcome.panicked
  else
    match chunk_bytes rngNext c.seed fuel
        (c.maximum_prebuild_cache_size_bytes % 2 ^ 64) (tcpSizes c) with
    | none => none
    | some (Except.error e) => some (Outcome.failed (TcpError.Block e))
    | some (Except.ok (chunks, rngAfter)) =>
      match construct_block_cache_checked (serOf c.variant) rngAfter
          chunks with
      | none => some Outcome.panicked
      | some cache => some (Outcome.ok cache)

/-- Embedding of `Tcp::new` (lines 106-169): build the block cache, then
resolve the address (`to_socket_addrs` modelled by `resolve`; `expect`
panics when resolution errors, `next().unwrap()` panics when it yields no
address) and take the first result. -/
def tcpNew (resolve : String → Option (List Nat))
    (serOf : GeneratorVariant → Serializer) (rngNext : Nat → Nat × Nat)
    (fuel : Nat) (c : Config) : Option (Outcome Tcp) :=
  match tcpBlockCache serOf rngNext fuel c with
  | none => none
  | some Outcome.panicked => some Outcome.panicked
  | some (Outcome.failed e) => some (Outcome.failed e)
  | some (Outcome.ok cache) =>
    match resolve c.addr with
    | none => some Outcome.panicked
    | some [] => some Outcome.panicked
    | some (a :: _) =>
      some (Outcome.ok
        { addr := a, bytes_per_second := c.bytes_per_second % 2 ^ 32,
          block_cache := cache })

/-- Claim C9: cache construction is deterministic in the seed: two
configurations that agree on the seed, the variant (for the static
variant this includes the file contents), the block sizes, the rate and
the cache budget — they may differ in the target address — produce
identical block-cache outcomes, hence equal block counts and per-block
equal payload bytes, total_bytes and line counts.  All randomness flows
through the seeded PRNG `rngNext`, and the serializers (`serOf`) are
deterministic functions of the PRNG state and size hint. -/
theorem tcpBlockCache_deterministic (serOf : GeneratorVariant → Serializer)
    (rngNext : Nat → Nat × Nat) (fuel : Nat) (c1 c2 : Config)
    (hseed : c1.seed = c2.seed) (hvar : c1.variant = c2.variant)
    (hbs : c1.block_sizes = c2.block_sizes)
    (hbps : c1.bytes_per_second = c2.bytes_per_second)
    (hmax : c1.maximum_prebuild_cache_size_bytes =
      c2.maximum_prebuild_cache_size_bytes) :
    tcpBlockCache serOf rngNext fuel c1 =
      tcpBlockCache serOf rngNext fuel c2 := by
  rw [tcpBlockCache, tcpBlockCache, tcpSizes, tcpSizes, hseed, hvar, hbs,
    hbps, hmax]

theorem tcpBlockCache_deterministic_witness :
    tcpBlockCache (fun _ st hint => (List.replicate hint 10, st))
        (fun s => (0, s + 1)) 10
        { seed := 0, addr := "first.example:80",
          variant := GeneratorVariant.Static [65, 10],
          bytes_per_second := 100, block_sizes := some [1],
          maximum_prebuild_cache_size_bytes := 3 } =
      tcpBlockCache (fun _ st hint => (List.replicate hint 10, st))
        (fun s => (0, s + 1)) 10
        { seed := 0, addr := "second.example:80",
          variant := GeneratorVariant.Static [65, 10],
          bytes_per_second := 100, block_sizes := some [1],
          maximum_prebuild_cache_size_bytes := 3 } :=
  tcpBlockCache_deterministic (fun _ st hint => (List.replicate hint 10, st))
    (fun s => (0, s + 1)) 10
    { seed := 0, addr := "first.example:80",
      variant := GeneratorVariant.Static [65, 10],
      bytes_per_second := 100, block_sizes := some [1],
      maximum_prebuild_cache_size_bytes := 3 }
    { seed := 0, addr := "second.example:80",
      variant := GeneratorVariant.Static [65, 10],
      bytes_per_second := 100, block_sizes := some [1],
      maximum_prebuild_cache_size_bytes := 3 }
    rfl rfl rfl rfl rfl

/-- Claim C10: `Tcp::new` panics instead of returning an `Error` when the
address string fails to resolve or resolves to zero socket addresses, and
likewise when `bytes_per_second` or `maximum_prebuild_cache_size_bytes`
converts (truncates) to zero; in all four situations the outcome is the
panic outcome, never `Outcome.failed`. -/
theorem tcpNew_panics_on_bad_addr_or_zero_bytes
    (resolve : String → Option (List Nat))
    (serOf : GeneratorVariant → Serializer) (rngNext : Nat → Nat × Nat)
    (fuel : Nat) (c : Config) :
    (∀ cache, tcpBlockCache serOf rngNext fuel c = some (Outcome.ok cache) →
      (resolve c.addr = none →
        tcpNew resolve serOf rngNext fuel c = some Outcome.panicked) ∧
      (resolve c.addr = some [] →
        tcpNew resolve serOf rngNext fuel c = some Outcome.panicked)) ∧
    ((tcpSizes c).any (fun sz => sz == 0) = false →
      c.bytes_per_second % 2 ^ 32 = 0 →
      tcpNew resolve serOf rngNext fuel c = some Outcome.panicked) ∧
    ((tcpSizes c).any (fun sz => sz == 0) = false →
      c.bytes_per_second % 2 ^ 32 ≠ 0 →
      c.maximum_prebuild_cache_size_bytes % 2 ^ 64 = 0 →
      tcpNew resolve serOf rngNext fuel c = some Outcome.panicked) := by
  refine ⟨?_, ?_, ?_⟩
  · intro cache hcache
    constructor
    · intro hres
      rw [tcpNew, hcache, hres]
    · intro hres
      rw [tcpNew, hcache, hres]
  · intro hany hbps
    have h1 : ¬((tcpSizes c).any (fun sz => sz == 0) = true) := by
      rw [hany]; exact Bool.false_ne_true
    have hcache : tcpBlockCache serOf rngNext fuel c =
        some Outcome.panicked := by
      rw [tcpBlockCache, if_neg h1, if_pos hbps]
    rw [tcpNew, hcache]
  · intro hany hbps hmax
    have h1 : ¬((tcpSizes c).any (fun sz => sz == 0) = true) := by
      rw [hany]; exact Bool.false_ne_true
    have hcache : tcpBlockCache serOf rngNext fuel c =
        some Outcome.panicked := by
      rw [tcpBlockCache, if_neg h1, if_neg hbps, if_pos hmax]
    rw [tcpNew, hcache]

theorem tcpNew_panics_on_bad_addr_or_zero_bytes_witness :
    tcpNew (fun _ => none) (fun _ st hint => (List.replicate hint 10, st))
        (fun s => (0, s + 1)) 10
        { seed := 0, addr := "unresolvable.example:80",
          variant := GeneratorVariant.Fluent, bytes_per_second := 100,
          block_sizes := some [1],
          maximum_prebuild_cache_size_bytes := 3 } =
      some Outcome.panicked ∧
    tcpNew (fun _ => some [7]) (fun _ st hint => (List.replicate hint 10, st))
        (fun s => (0, s + 1)) 10
        { seed := 0, addr := "target.example:80",
          variant := GeneratorVariant.Fluent, bytes_per_second := 2 ^ 32,
          block_sizes := some [1],
          maximum_prebuild_cache_size_bytes := 3 } =
      some Outcome.panicked ∧
    tcpNew (fun _ => some [7]) (fun _ st hint => (List.replicate hint 10, st))
        (fun s => (0, s + 1)) 10
        { seed := 0, addr := "target.example:80",
          variant := GeneratorVariant.Fluent, bytes_per_second := 100,
          block_sizes := some [1],
          maximum_prebuild_cache_size_bytes := 0 } =
      some Outcome.panicked :=
  ⟨((tcpNew_panics_on_bad_addr_or_zero_bytes (fun _ => none)
        (fun _ st hint => (List.replicate hint 10, st)) (fun s => (0, s + 1))
        10
        { seed := 0, addr := "unresolvable.example:80",
          variant := GeneratorVariant.Fluent, bytes_per_second := 100,
          block_sizes := some [1],
          maximum_prebuild_cache_size_bytes := 3 }).1
      [{ total_bytes := 1, lines := 1, bytes := [10] },
       { total_bytes := 1, lines := 1, bytes := [10] }] (by decide)).1 rfl,
   (tcpNew_panics_on_bad_addr_or_zero_bytes (fun _ => some [7])
        (fun _ st hint => (List.replicate hint 10, st)) (fun s => (0, s + 1))
        10
        { seed := 0, addr := "target.example:80",
          variant := GeneratorVariant.Fluent, bytes_per_second := 2 ^ 32,
          block_sizes := some [1],
          maximum_prebuild_cache_size_bytes := 3 }).2.1
      (by decide) (by decide),
   (tcpNew_panics_on_bad_addr_or_zero_bytes (fun _ => some [7])
        (fun _ st hint => (List.replicate hint 10, st)) (fun s => (0, s + 1))
        10
        { seed := 0, addr := "target.example:80",
          variant := GeneratorVariant.Fluent, bytes_per_second := 100,
          block_sizes := some [1],
          maximum_prebuild_cache_size_bytes := 0 }).2.2
      (by decide) (by decide) (by decide)⟩

/-- Claim C3 (evidence for the code defect): with
`bytes_per_second = 2^32 + 1`, a value that does not fit in a 32-bit
unsigned integer, `Tcp::new` does not fail at all: the `as u32` cast
silently truncates the rate to 1 byte per second and construction
returns `Ok`.  (For exact multiples of 2^32 the truncation yields zero
and `NonZeroU32::new(..).unwrap()` panics; no path returns the
documented governor-capacity error.) -/
theorem tcpNew_silently_truncates_rate :
    ∃ t : Tcp,
      tcpNew (fun _ => some [7])
          (fun _ st hint => (List.replicate hint 10, st))
          (fun s => (0, s + 1)) 10
          { seed := 0, addr := "target.example:80",
            variant := GeneratorVariant.Fluent,
            bytes_per_second := 2 ^ 32 + 1, block_sizes := some [1],
            maximum_prebuild_cache_size_bytes := 3 } =
        some (Outcome.ok t) ∧
      t.bytes_per_second = 1 :=
  ⟨{ addr := 7, bytes_per_second := 1,
     block_cache := [{ total_bytes := 1, lines := 1, bytes := [10] },
                     { total_bytes := 1, lines := 1, bytes := [10] }] },
   by decide, rfl⟩

end Lading
